import Mathlib

/-!
Shallow embedding of the core of `simplytimemanager`:
the in-memory schedule conflict index (`tasks/services/schedule_service.py`)
and the task lifecycle controller (`tasks/services/task_service.py`),
together with the error classes of `tasks/services/exceptions.py` and the
relevant parts of the data model (`tasks/models.py`).

Modelling conventions:
* `datetime.time` values are modelled as `Nat` (minutes since midnight);
  only their total order matters to the code.
* The two `SortedList`s of `ScheduleService` hold pairs
  `(time, schedule)` whose time component always equals the schedule's own
  `start_time` (resp. `end_time`), so an entry is modelled by the schedule
  alone; the index order is a representation detail (every query the code
  performs — a `bisect` range slice, set membership, `remove` of one equal
  element — depends only on the multiset of entries), so the lists are kept
  in insertion order here.
* Django model instances compare by primary key; distinct rows have distinct
  primary keys, so structural equality of the records below is faithful.
* Raised exceptions are modelled by an error component of the result; a
  partially executed operation returns the partially mutated state together
  with the error, exactly as the in-memory singleton would retain it.
-/

namespace STM

/-- The task lifecycle states of `TaskState(models.TextChoices)`. -/
inductive TaskState where
  | planned
  | active
  | paused
  | finished
  | archived
deriving DecidableEq, Repr

/-- The textual value of a `TaskState` member (its `TextChoices` value,
which is what a Python f-string interpolates). -/
def TaskState.value : TaskState → String
  | .planned => "planned"
  | .active => "active"
  | .paused => "paused"
  | .finished => "finished"
  | .archived => "archived"

/-- The `Schedule` model row: owning task (with its title denormalised, as
`_check_conflict` reads `time_conflict.task.title`), `start_time`,
`end_time`, and the seven weekday flags. -/
structure Schedule where
  id : Nat
  taskId : Nat
  taskTitle : String
  start_time : Nat
  end_time : Nat
  monday : Bool
  tuesday : Bool
  wednesday : Bool
  thursday : Bool
  friday : Bool
  saturday : Bool
  sunday : Bool
deriving DecidableEq, Repr

/-- The `Schedule.weekdays` property: day names (capitalised field names)
paired with their flags. -/
def Schedule.weekdays (s : Schedule) : List (String × Bool) :=
  [("Monday", s.monday), ("Tuesday", s.tuesday), ("Wednesday", s.wednesday),
   ("Thursday", s.thursday), ("Friday", s.friday), ("Saturday", s.saturday),
   ("Sunday", s.sunday)]

/-- `set([day for day, is_ in x.weekdays if is_])`: the names of the days a
schedule is flagged on. -/
def Schedule.activeDays (s : Schedule) : List String :=
  (s.weekdays.filter (fun p => p.2)).map (fun p => p.1)

/-- The `ScheduleConflict` dataclass of `schedule_service.py`. -/
structure ScheduleConflict where
  task_name : String
  start_time : Nat
  end_time : Nat
  weekdays : List String
deriving DecidableEq, Repr

/-- The `Task` model row (fields the core reads; `subject`, `description`
and the timestamps play no role in the services). -/
structure Task where
  id : Nat
  title : String
  state : TaskState
deriving DecidableEq, Repr

/-- Detail string of `ConflictActiveTaskSchedulesMissingException`. -/
def conflictActiveTaskSchedulesMissingDetail : String :=
  "To change the state in " ++ TaskState.active.value ++
    ", the task must have at least one schedule."

/-- Detail string of `ConflictActiveTaskSchedulesException`: the class
constant `default_detail`; the raise site `raise
ConflictActiveTaskSchedulesException()` passes no arguments, so this fixed
text is all a caller receives. -/
def conflictActiveTaskSchedulesDetail : String :=
  "This task's schedules conflict with the schedules of other tasks. To resolve " ++
    "this issue, either change the schedules of the current task, or schedules of " ++
    "other tasks, or move other tasks to state " ++ TaskState.paused.value ++ "."

/-- Detail string of `ConflictDeletedTaskException`. -/
def conflictDeletedTaskDetail : String :=
  "Task can only be deleted from states " ++ TaskState.planned.value ++ " or " ++
    TaskState.finished.value ++ " or " ++ TaskState.archived.value

/-- The `possible_state_changing` table of `ConflictTaskStateException`. -/
def possibleStateChanging : TaskState → List TaskState
  | .planned => [.active]
  | .active => [.paused, .finished]
  | .paused => [.active, .finished]
  | .finished => [.archived]
  | .archived => [.finished]

/-- Detail string built by `ConflictTaskStateException.__init__` for a given
current state (the table has an entry for every state, so the conditional
suffix is always appended). -/
def conflictTaskStateDetail (cur : TaskState) : String :=
  let ps := possibleStateChanging cur
  let manySuffix := if ps.length > 1 then "s" else ""
  let manyBe := if ps.length > 1 then "are" else "is"
  let psStr := "'" ++ String.intercalate "' and '" (ps.map TaskState.value) ++ "'"
  "Transiting the current state of the task is not possible, " ++
    "to the state you specified" ++
    ". From state '" ++ cur.value ++ "', only transition" ++ manySuffix ++
    " to state" ++ manySuffix ++ " " ++ psStr ++ " " ++ manyBe ++ " possible."

/-- The exceptions the two services raise.  `logicError` is `LogicError`
(an internal invariant violation); `valueError` models the `ValueError`
that `SortedList.remove` raises when the value is absent. -/
inductive SvcErr where
  | missingSchedules (detail : String)
  | scheduleConflict (detail : String)
  | deleteConflict (detail : String)
  | invalidTransition (detail : String)
  | logicError
  | valueError
deriving DecidableEq, Repr

/-- State of `ScheduleService`: the `_starts` and `_ends` sorted lists,
each modelled by the list of schedules it contains. -/
structure SSState where
  starts : List Schedule
  ends : List Schedule
deriving DecidableEq, Repr

/-- The state `_start_service` produces when no task is active. -/
def SSState.empty : SSState := ⟨[], []⟩

namespace ScheduleService

/-- `time_conflict_days := instance_days & time_conflict_days` of
`_check_conflict`, as the (deterministically ordered) list of shared day
names. -/
def conflict_days (inst other : Schedule) : List String :=
  inst.activeDays.filter (fun d => d ∈ other.activeDays)

/-- `_check_conflict(instance)`: schedules of the start index with
`start_time < instance.end_time` (the slice below `bisect_left`),
intersected with schedules of the end index with
`end_time > instance.start_time` (the slice above `bisect_right`); the
first member of the intersection sharing a flagged weekday yields a
`ScheduleConflict`, otherwise the check returns nothing. -/
def check_conflict (st : SSState) (inst : Schedule) : Option ScheduleConflict :=
  let startConflicts := st.starts.filter (fun t => t.start_time < inst.end_time)
  let endConflicts := st.ends.filter (fun t => inst.start_time < t.end_time)
  let timeConflicts := startConflicts.filter (fun t => t ∈ endConflicts)
  timeConflicts.findSome? (fun t =>
    let ds := conflict_days inst t
    if ds.isEmpty then none
    else some ⟨t.taskTitle, t.start_time, t.end_time, ds⟩)

/-- `_add_schedule(instance)`: insert the schedule into both indexes. -/
def add_schedule (st : SSState) (s : Schedule) : SSState :=
  ⟨st.starts ++ [s], st.ends ++ [s]⟩

/-- `_remove_schedule(instance)`: `SortedList.remove` one equal entry from
each index; an absent entry raises `ValueError`, leaving the start index
already mutated if the failure comes from the end index. -/
def remove_schedule (st : SSState) (s : Schedule) : SSState × Option SvcErr :=
  if s ∈ st.starts then
    let st1 : SSState := ⟨st.starts.erase s, st.ends⟩
    if s ∈ st1.ends then (⟨st1.starts, st1.ends.erase s⟩, none)
    else (st1, some .valueError)
  else (st, some .valueError)

/-- The loop of `remove_task_schedules`: remove schedules one at a time,
stopping at the first `ValueError`. -/
def remove_loop : SSState → List Schedule → SSState × Option SvcErr
  | st, [] => (st, none)
  | st, s :: rest =>
    match remove_schedule st s with
    | (st1, none) => remove_loop st1 rest
    | (st1, some e) => (st1, some e)

/-- `remove_task_schedules(instance)`, applied to the fetched queryset
`instance.schedules.all()`: `LogicError` on an empty set, otherwise remove
each schedule from both indexes. -/
def remove_task_schedules (st : SSState) (scheds : List Schedule) :
    SSState × Option SvcErr :=
  if scheds.isEmpty then (st, some .logicError)
  else remove_loop st scheds

/-- `add_task_schedules(instance)`, applied to the fetched queryset
`instance.schedules.all()`: `ConflictActiveTaskSchedulesMissingException`
on an empty set; otherwise collect the conflicts of every schedule against
the current index, raise `ConflictActiveTaskSchedulesException` (with its
constant default detail) if any were found, and only then insert all the
schedules into both indexes. -/
def add_task_schedules (st : SSState) (scheds : List Schedule) :
    SSState × Option SvcErr :=
  if scheds.isEmpty then
    (st, some (.missingSchedules conflictActiveTaskSchedulesMissingDetail))
  else
    let conflicts := scheds.filterMap (check_conflict st)
    if conflicts.isEmpty then
      (scheds.foldl add_schedule st, none)
    else
      (st, some (.scheduleConflict conflictActiveTaskSchedulesDetail))

end ScheduleService

/-- A schedule is present in the index when it sits in both internal
lists. -/
def inIndex (st : SSState) (s : Schedule) : Prop :=
  s ∈ st.starts ∧ s ∈ st.ends

/-- Two schedules' half-open time-of-day intervals overlap. -/
def timeOverlap (s t : Schedule) : Bool :=
  decide (s.start_time < t.end_time) && decide (t.start_time < s.end_time)

/-- Two schedules share at least one flagged weekday. -/
def sharedDay (s t : Schedule) : Bool :=
  !(ScheduleService.conflict_days s t).isEmpty

/-- A real conflict in the sense of the spec: overlapping time intervals
and a shared weekday. -/
def conflicting (s t : Schedule) : Bool :=
  timeOverlap s t && sharedDay s t

/-- The world a `TaskService` call operates on: the in-memory
`ScheduleService` state and the persisted `Task` and `Schedule` tables. -/
structure World where
  svc : SSState
  tasks : List Task
  scheduleRows : List Schedule
deriving DecidableEq, Repr

/-- The queryset `instance.schedules.all()` / `Schedule.objects.filter(task=instance)`:
the persisted schedule rows of one task. -/
def taskSchedules (w : World) (tid : Nat) : List Schedule :=
  w.scheduleRows.filter (fun s => s.taskId = tid)

/-- A record of which `ScheduleService` mutation a `TaskService` call
invoked (instrumentation of the embedding; the argument is the task id). -/
inductive IdxOp where
  | addCall (tid : Nat)
  | removeCall (tid : Nat)
deriving DecidableEq, Repr

/-- Result shape of a `TaskService` method: the world after the call, the
trace of `ScheduleService` mutations it invoked, and the exception it
raised, if any. -/
abbrev TSResult := World × List IdxOp × Option SvcErr

/-- `serializer.save()` / `instance.save()` on one task row: apply the
serializer's field edits and set the (validated or assigned) state. -/
def updateTaskRow (w : World) (tid : Nat) (f : Task → Task) : World :=
  { w with tasks := w.tasks.map (fun r => if r.id = tid then f r else r) }

/-- `instance.delete()`: remove the task row; the `on_delete=CASCADE`
foreign key deletes its schedule rows with it. -/
def deleteTaskRow (w : World) (tid : Nat) : World :=
  { w with tasks := w.tasks.filter (fun r => r.id ≠ tid),
           scheduleRows := w.scheduleRows.filter (fun s => s.taskId ≠ tid) }

namespace TaskService

/-- `set_state_active(instance, serializer)`: guard the source state, add
the task's schedules to the index (propagating its exceptions), then save
with the new state.  `edits` stands for the serializer's other-field
updates. -/
def set_state_active (w : World) (t : Task) (edits : Task → Task) : TSResult :=
  if t.state = .planned ∨ t.state = .paused then
    match ScheduleService.add_task_schedules w.svc (taskSchedules w t.id) with
    | (st1, some e) => ({ w with svc := st1 }, [.addCall t.id], some e)
    | (st1, none) =>
      (updateTaskRow { w with svc := st1 } t.id
        (fun r => { edits r with state := .active }), [.addCall t.id], none)
  else (w, [], some .logicError)

/-- `set_state_paused(instance, serializer)`: guard the source state,
remove the task's schedules from the index, then save. -/
def set_state_paused (w : World) (t : Task) (edits : Task → Task) : TSResult :=
  if t.state = .active then
    match ScheduleService.remove_task_schedules w.svc (taskSchedules w t.id) with
    | (st1, some e) => ({ w with svc := st1 }, [.removeCall t.id], some e)
    | (st1, none) =>
      (updateTaskRow { w with svc := st1 } t.id
        (fun r => { edits r with state := .paused }), [.removeCall t.id], none)
  else (w, [], some .logicError)

/-- `set_state_finished(instance, serializer)`: guard the source state;
from ACTIVE remove the schedules from the index and delete the persisted
schedule rows; from PAUSED delete only the persisted rows; from ARCHIVED
do neither; then save. -/
def set_state_finished (w : World) (t : Task) (edits : Task → Task) : TSResult :=
  if t.state = .active ∨ t.state = .paused ∨ t.state = .archived then
    if t.state = .active then
      match ScheduleService.remove_task_schedules w.svc (taskSchedules w t.id) with
      | (st1, some e) => ({ w with svc := st1 }, [.removeCall t.id], some e)
      | (st1, none) =>
        let w1 : World :=
          { w with svc := st1,
                   scheduleRows := w.scheduleRows.filter (fun s => s.taskId ≠ t.id) }
        (updateTaskRow w1 t.id (fun r => { edits r with state := .finished }),
          [.removeCall t.id], none)
    else if t.state = .paused then
      (updateTaskRow
        { w with scheduleRows := w.scheduleRows.filter (fun s => s.taskId ≠ t.id) }
        t.id (fun r => { edits r with state := .finished }), [], none)
    else
      (updateTaskRow w t.id (fun r => { edits r with state := .finished }), [], none)
  else (w, [], some .logicError)

/-- `set_state_archived(instance, serializer)`. -/
def set_state_archived (w : World) (t : Task) (edits : Task → Task) : TSResult :=
  if t.state = .finished then
    (updateTaskRow w t.id (fun r => { edits r with state := .archived }), [], none)
  else (w, [], some .logicError)

/-- `remove_task(instance, force)`: without force, deletion is refused
unless the state is PLANNED, FINISHED or ARCHIVED; an ACTIVE task (only
reachable here under force) first has its schedules removed from the
index; then the row is deleted (cascading its schedules). -/
def remove_task (w : World) (t : Task) (force : Bool) : TSResult :=
  if !force ∧
      ¬(t.state = .planned ∨ t.state = .finished ∨ t.state = .archived) then
    (w, [], some (.deleteConflict conflictDeletedTaskDetail))
  else if t.state = .active then
    match ScheduleService.remove_task_schedules w.svc (taskSchedules w t.id) with
    | (st1, some e) => ({ w with svc := st1 }, [.removeCall t.id], some e)
    | (st1, none) =>
      (deleteTaskRow { w with svc := st1 } t.id, [.removeCall t.id], none)
  else (deleteTaskRow w t.id, [], none)

/-- `_check_and_update_state(instance, new_state, serializer)`: a request
for the current state saves and does nothing else; the four legal moves
dispatch to their handlers; anything else raises
`ConflictTaskStateException(instance.state)`. -/
def check_and_update_state (w : World) (t : Task) (new_state : TaskState)
    (edits : Task → Task) : TSResult :=
  if t.state = new_state then
    (updateTaskRow w t.id (fun r => { edits r with state := new_state }), [], none)
  else
    match t.state, new_state with
    | .planned, .active => set_state_active w t edits
    | .paused, .active => set_state_active w t edits
    | .active, .paused => set_state_paused w t edits
    | .active, .finished => set_state_finished w t edits
    | .paused, .finished => set_state_finished w t edits
    | .archived, .finished => set_state_finished w t edits
    | .finished, .archived => set_state_archived w t edits
    | _, _ => (w, [], some (.invalidTransition (conflictTaskStateDetail t.state)))

end TaskService

/-- One `ScheduleService` mutation, as issued by the lifecycle layer: an
activation carries the task's fetched schedule set, a deactivation
likewise. -/
inductive SSOp where
  | addOp (scheds : List Schedule)
  | removeOp (scheds : List Schedule)
deriving DecidableEq, Repr

/-- Apply one mutation to the index, keeping whatever (possibly partial)
state the operation left behind. -/
def applySSOp (st : SSState) : SSOp → SSState
  | .addOp ss => (ScheduleService.add_task_schedules st ss).1
  | .removeOp ss => (ScheduleService.remove_task_schedules st ss).1

/-- Apply a sequence of mutations starting from a given index state. -/
def runSSOps (st : SSState) (ops : List SSOp) : SSState :=
  ops.foldl applySSOp st

/-- A well-formed mutation: the schedule set of an `addTaskSchedules` call
is `instance.schedules.all()`, so all its members belong to the one task
being activated. -/
def WFOp : SSOp → Prop
  | .addOp ss => ∀ s₁ ∈ ss, ∀ s₂ ∈ ss, Schedule.taskId s₁ = Schedule.taskId s₂
  | .removeOp _ => True

/-- The index invariant of the spec: no two schedules of different tasks
that are both present in the index conflict. -/
def IndexInv (st : SSState) : Prop :=
  ∀ s t : Schedule, inIndex st s → inIndex st t →
    Schedule.taskId s ≠ Schedule.taskId t → conflicting s t = false

section Lemmas

open ScheduleService

lemma findSome?_isSome_iff {α β : Type} (f : α → Option β) (l : List α) :
    (l.findSome? f).isSome = true ↔ ∃ x ∈ l, (f x).isSome = true := by
  induction l with
  | nil => simp
  | cons a l ih => cases h : f a <;> simp [List.findSome?_cons, h, ih]

lemma findSome?_eq_some {α β : Type} (f : α → Option β) (l : List α) (b : β)
    (h : l.findSome? f = some b) : ∃ x ∈ l, f x = some b := by
  induction l with
  | nil => simp [List.findSome?] at h
  | cons a l ih =>
    cases ha : f a with
    | some c =>
      have hred : List.findSome? f (a :: l) = some c := by
        rw [List.findSome?_cons, ha]
      rw [hred] at h
      cases h
      exact ⟨a, List.mem_cons_self a l, ha⟩
    | none =>
      have hred : List.findSome? f (a :: l) = List.findSome? f l := by
        rw [List.findSome?_cons, ha]
      rw [hred] at h
      obtain ⟨x, hx, hfx⟩ := ih h
      exact ⟨x, List.mem_cons_of_mem a hx, hfx⟩

lemma sharedDay_iff (s t : Schedule) :
    sharedDay s t = true ↔ ∃ d, d ∈ s.activeDays ∧ d ∈ t.activeDays := by
  unfold sharedDay ScheduleService.conflict_days
  constructor
  · intro h
    have hne : s.activeDays.filter (fun d => decide (d ∈ t.activeDays)) ≠ [] := by
      intro he
      rw [he] at h
      simp at h
    obtain ⟨d, hd⟩ := List.exists_mem_of_ne_nil _ hne
    have hd2 := List.mem_filter.mp hd
    exact ⟨d, hd2.1, by simpa using hd2.2⟩
  · rintro ⟨d, h1, h2⟩
    have hd : d ∈ s.activeDays.filter (fun d => decide (d ∈ t.activeDays)) :=
      List.mem_filter.mpr ⟨h1, by simpa using h2⟩
    cases hc : s.activeDays.filter (fun d => decide (d ∈ t.activeDays)) with
    | nil => rw [hc] at hd; simp at hd
    | cons x xs => simp [hc]

lemma sharedDay_symm (s t : Schedule) : sharedDay s t = sharedDay t s := by
  cases h1 : sharedDay s t <;> cases h2 : sharedDay t s <;> try rfl
  · exfalso
    obtain ⟨d, hd1, hd2⟩ := (sharedDay_iff t s).mp h2
    have hst := (sharedDay_iff s t).mpr ⟨d, hd2, hd1⟩
    rw [h1] at hst
    exact Bool.false_ne_true hst
  · exfalso
    obtain ⟨d, hd1, hd2⟩ := (sharedDay_iff s t).mp h1
    have hts := (sharedDay_iff t s).mpr ⟨d, hd2, hd1⟩
    rw [h2] at hts
    exact Bool.false_ne_true hts

lemma conflicting_eq_true_iff (s t : Schedule) :
    conflicting s t = true ↔
      s.start_time < t.end_time ∧ t.start_time < s.end_time ∧ sharedDay s t = true := by
  simp [conflicting, timeOverlap, Bool.and_eq_true, and_assoc]

lemma check_conflict_isSome_iff (st : SSState) (S : Schedule) :
    (check_conflict st S).isSome = true ↔
      ∃ T, T ∈ st.starts ∧ T ∈ st.ends ∧
        T.start_time < S.end_time ∧ S.start_time < T.end_time ∧ sharedDay S T = true := by
  unfold check_conflict
  rw [findSome?_isSome_iff]
  constructor
  · rintro ⟨T, hT, hsome⟩
    have h1 := List.mem_filter.mp hT
    have h2 := List.mem_filter.mp h1.1
    have hmemE : T ∈ st.ends.filter (fun t => decide (S.start_time < t.end_time)) := by
      simpa using h1.2
    have h3 := List.mem_filter.mp hmemE
    refine ⟨T, h2.1, h3.1, by simpa using h2.2, by simpa using h3.2, ?_⟩
    by_cases hds : (ScheduleService.conflict_days S T).isEmpty
    · simp [hds] at hsome
    · simpa [sharedDay] using hds
  · rintro ⟨T, hs, he, h1, h2, h3⟩
    have hmemE : T ∈ st.ends.filter (fun t => decide (S.start_time < t.end_time)) :=
      List.mem_filter.mpr ⟨he, by simpa using h2⟩
    refine ⟨T, List.mem_filter.mpr ⟨List.mem_filter.mpr ⟨hs, by simpa using h1⟩,
      by simpa using hmemE⟩, ?_⟩
    have hds : (ScheduleService.conflict_days S T).isEmpty = false := by
      simpa [sharedDay] using h3
    simp [hds]

lemma check_conflict_none_iff (st : SSState) (S : Schedule) :
    check_conflict st S = none ↔
      ∀ T, T ∈ st.starts → T ∈ st.ends →
        ¬(T.start_time < S.end_time ∧ S.start_time < T.end_time ∧
          sharedDay S T = true) := by
  rw [← Option.not_isSome_iff_eq_none, check_conflict_isSome_iff]
  constructor
  · intro h T h1 h2 hc
    exact h ⟨T, h1, h2, hc.1, hc.2.1, hc.2.2⟩
  · rintro h ⟨T, h1, h2, h3, h4, h5⟩
    exact h T h1 h2 ⟨h3, h4, h5⟩

lemma check_conflict_eq_some (st : SSState) (S : Schedule) (r : ScheduleConflict)
    (h : check_conflict st S = some r) :
    ∃ T, T ∈ st.starts ∧ T ∈ st.ends ∧
      T.start_time < S.end_time ∧ S.start_time < T.end_time ∧ sharedDay S T = true ∧
      r = ⟨T.taskTitle, T.start_time, T.end_time, ScheduleService.conflict_days S T⟩ := by
  unfold check_conflict at h
  obtain ⟨T, hT, hfT⟩ := findSome?_eq_some _ _ _ h
  have h1 := List.mem_filter.mp hT
  have h2 := List.mem_filter.mp h1.1
  have hmemE : T ∈ st.ends.filter (fun t => decide (S.start_time < t.end_time)) := by
    simpa using h1.2
  have h3 := List.mem_filter.mp hmemE
  by_cases hds : (ScheduleService.conflict_days S T).isEmpty
  · simp [hds] at hfT
  · refine ⟨T, h2.1, h3.1, by simpa using h2.2, by simpa using h3.2,
      by simpa [sharedDay] using hds, ?_⟩
    simp [hds] at hfT
    exact hfT.symm

lemma foldl_add_schedule (ss : List Schedule) (st : SSState) :
    ss.foldl add_schedule st = ⟨st.starts ++ ss, st.ends ++ ss⟩ := by
  induction ss generalizing st with
  | nil => simp
  | cons a l ih => simp [List.foldl_cons, add_schedule, ih]

lemma add_task_schedules_nil (st : SSState) :
    add_task_schedules st [] =
      (st, some (.missingSchedules conflictActiveTaskSchedulesMissingDetail)) := by
  simp [add_task_schedules]

lemma add_task_schedules_of_conflict (st : SSState) (ss : List Schedule)
    (hne : ss ≠ []) (h : ∃ s ∈ ss, (check_conflict st s).isSome = true) :
    add_task_schedules st ss =
      (st, some (.scheduleConflict conflictActiveTaskSchedulesDetail)) := by
  obtain ⟨s, hs, hsome⟩ := h
  obtain ⟨r, hr⟩ := Option.isSome_iff_exists.mp hsome
  have hmem : r ∈ ss.filterMap (check_conflict st) :=
    List.mem_filterMap.mpr ⟨s, hs, hr⟩
  have hconf : (ss.filterMap (check_conflict st)).isEmpty = false := by
    cases hc : ss.filterMap (check_conflict st) with
    | nil => rw [hc] at hmem; simp at hmem
    | cons x xs => rfl
  simp [add_task_schedules, hne, hconf]

lemma add_task_schedules_of_no_conflict (st : SSState) (ss : List Schedule)
    (hne : ss ≠ []) (h : ∀ s ∈ ss, check_conflict st s = none) :
    add_task_schedules st ss = (⟨st.starts ++ ss, st.ends ++ ss⟩, none) := by
  have hconf : ss.filterMap (check_conflict st) = [] := by
    rw [List.filterMap_eq_nil_iff]
    exact h
  simp [add_task_schedules, hne, hconf, foldl_add_schedule]

lemma add_task_schedules_ok (st : SSState) (ss : List Schedule) (st1 : SSState)
    (h : add_task_schedules st ss = (st1, none)) :
    ss ≠ [] ∧ (∀ s ∈ ss, check_conflict st s = none) ∧
      st1 = ⟨st.starts ++ ss, st.ends ++ ss⟩ := by
  by_cases hne : ss = []
  · rw [hne, add_task_schedules_nil] at h
    exact absurd (congrArg Prod.snd h) (by simp)
  · by_cases hc : ∀ s ∈ ss, check_conflict st s = none
    · rw [add_task_schedules_of_no_conflict st ss hne hc] at h
      exact ⟨hne, hc, (congrArg Prod.fst h).symm⟩
    · push_neg at hc
      obtain ⟨s, hs, hsome⟩ := hc
      have hrw := add_task_schedules_of_conflict st ss hne
        ⟨s, hs, Option.ne_none_iff_isSome.mp hsome⟩
      rw [hrw] at h
      exact absurd (congrArg Prod.snd h) (by simp)

lemma erase_append_middle_perm {α : Type} [DecidableEq α] (a : α) (l r : List α) :
    ((l ++ a :: r).erase a).Perm (l ++ r) := by
  have hmem : a ∈ l ++ a :: r := by simp
  have h1 := List.perm_cons_erase hmem
  have h2 : (l ++ a :: r).Perm (a :: (l ++ r)) := List.perm_middle
  exact (h1.symm.trans h2).cons_inv

lemma remove_loop_perm (ss : List Schedule) (st st0 : SSState)
    (hs : st.starts.Perm (st0.starts ++ ss)) (he : st.ends.Perm (st0.ends ++ ss)) :
    ∃ st1, remove_loop st ss = (st1, none) ∧
      st1.starts.Perm st0.starts ∧ st1.ends.Perm st0.ends := by
  induction ss generalizing st with
  | nil =>
    exact ⟨st, rfl, by simpa using hs, by simpa using he⟩
  | cons a rest ih =>
    have has : a ∈ st.starts := hs.mem_iff.mpr (by simp)
    have hae : a ∈ st.ends := he.mem_iff.mpr (by simp)
    have hs1 : (st.starts.erase a).Perm (st0.starts ++ rest) :=
      (hs.erase a).trans (erase_append_middle_perm a st0.starts rest)
    have he1 : (st.ends.erase a).Perm (st0.ends ++ rest) :=
      (he.erase a).trans (erase_append_middle_perm a st0.ends rest)
    obtain ⟨st1, hrun, hp1, hp2⟩ :=
      ih ⟨st.starts.erase a, st.ends.erase a⟩ hs1 he1
    refine ⟨st1, ?_, hp1, hp2⟩
    simp only [remove_loop, remove_schedule, has, if_true, hae, if_pos]
    exact hrun

lemma remove_loop_mem (ss : List Schedule) (st : SSState) :
    (∀ x, x ∈ (remove_loop st ss).1.starts → x ∈ st.starts) ∧
    (∀ x, x ∈ (remove_loop st ss).1.ends → x ∈ st.ends) := by
  induction ss generalizing st with
  | nil => exact ⟨fun x h => h, fun x h => h⟩
  | cons a rest ih =>
    by_cases has : a ∈ st.starts
    · by_cases hae : a ∈ st.ends
      · have hstep : remove_loop st (a :: rest) =
            remove_loop ⟨st.starts.erase a, st.ends.erase a⟩ rest := by
          simp only [remove_loop, remove_schedule, has, if_true, hae, if_pos]
        rw [hstep]
        obtain ⟨ih1, ih2⟩ := ih ⟨st.starts.erase a, st.ends.erase a⟩
        exact ⟨fun x h => List.mem_of_mem_erase (ih1 x h),
               fun x h => List.mem_of_mem_erase (ih2 x h)⟩
      · have hstep : remove_loop st (a :: rest) =
            (⟨st.starts.erase a, st.ends⟩, some .valueError) := by
          simp only [remove_loop, remove_schedule, has, if_true, hae, if_neg,
            not_false_iff]
        rw [hstep]
        exact ⟨fun x h => List.mem_of_mem_erase h, fun x h => h⟩
    · have hstep : remove_loop st (a :: rest) = (st, some .valueError) := by
        simp only [remove_loop, remove_schedule, has, if_neg, not_false_iff]
      rw [hstep]
      exact ⟨fun x h => h, fun x h => h⟩

lemma remove_task_schedules_mem (st : SSState) (ss : List Schedule) :
    (∀ x, x ∈ (remove_task_schedules st ss).1.starts → x ∈ st.starts) ∧
    (∀ x, x ∈ (remove_task_schedules st ss).1.ends → x ∈ st.ends) := by
  unfold remove_task_schedules
  by_cases h : ss.isEmpty
  · simp only [h, if_true]
    exact ⟨fun x h => h, fun x h => h⟩
  · simp only [h, if_false]
    exact remove_loop_mem ss st

lemma indexInv_empty : IndexInv SSState.empty := by
  intro s t hs _ _
  exact absurd hs.1 (by simp [SSState.empty])

lemma indexInv_add (st : SSState) (ss : List Schedule)
    (hwf : ∀ s₁ ∈ ss, ∀ s₂ ∈ ss, Schedule.taskId s₁ = Schedule.taskId s₂)
    (hinv : IndexInv st) : IndexInv (add_task_schedules st ss).1 := by
  by_cases hne : ss = []
  · rw [hne, add_task_schedules_nil]
    exact hinv
  · by_cases hc : ∀ s ∈ ss, check_conflict st s = none
    · rw [add_task_schedules_of_no_conflict st ss hne hc]
      intro x y hx hy hid
      obtain ⟨hxs, hxe⟩ := hx
      obtain ⟨hys, hye⟩ := hy
      by_cases hxss : x ∈ ss <;> by_cases hyss : y ∈ ss
      · exact absurd (hwf x hxss y hyss) hid
      · have hyo : inIndex st y :=
          ⟨(List.mem_append.mp hys).resolve_right hyss,
           (List.mem_append.mp hye).resolve_right hyss⟩
        have hnone := (check_conflict_none_iff st x).mp (hc x hxss) y hyo.1 hyo.2
        cases hcc : conflicting x y with
        | false => rfl
        | true =>
          obtain ⟨h1, h2, h3⟩ := (conflicting_eq_true_iff x y).mp hcc
          exact absurd ⟨h2, h1, h3⟩ hnone
      · have hxo : inIndex st x :=
          ⟨(List.mem_append.mp hxs).resolve_right hxss,
           (List.mem_append.mp hxe).resolve_right hxss⟩
        have hnone := (check_conflict_none_iff st y).mp (hc y hyss) x hxo.1 hxo.2
        cases hcc : conflicting x y with
        | false => rfl
        | true =>
          obtain ⟨h1, h2, h3⟩ := (conflicting_eq_true_iff x y).mp hcc
          refine absurd ⟨h1, h2, ?_⟩ hnone
          rw [← sharedDay_symm x y]
          exact h3
      · have hxo : inIndex st x :=
          ⟨(List.mem_append.mp hxs).resolve_right hxss,
           (List.mem_append.mp hxe).resolve_right hxss⟩
        have hyo : inIndex st y :=
          ⟨(List.mem_append.mp hys).resolve_right hyss,
           (List.mem_append.mp hye).resolve_right hyss⟩
        exact hinv x y hxo hyo hid
    · push_neg at hc
      obtain ⟨s, hs, hsome⟩ := hc
      rw [add_task_schedules_of_conflict st ss hne
        ⟨s, hs, Option.ne_none_iff_isSome.mp hsome⟩]
      exact hinv

lemma indexInv_remove (st : SSState) (ss : List Schedule)
    (hinv : IndexInv st) : IndexInv (remove_task_schedules st ss).1 := by
  obtain ⟨h1, h2⟩ := remove_task_schedules_mem st ss
  intro x y hx hy hid
  exact hinv x y ⟨h1 x hx.1, h2 x hx.2⟩ ⟨h1 y hy.1, h2 y hy.2⟩ hid

lemma indexInv_runSSOps (ops : List SSOp) (hwf : ∀ op ∈ ops, WFOp op)
    (st : SSState) (hinv : IndexInv st) : IndexInv (runSSOps st ops) := by
  induction ops generalizing st with
  | nil => exact hinv
  | cons op rest ih =>
    have hstep : IndexInv (applySSOp st op) := by
      cases op with
      | addOp ss => exact indexInv_add st ss (hwf _ (List.mem_cons_self _ _)) hinv
      | removeOp ss => exact indexInv_remove st ss hinv
    exact ih (fun op' h => hwf op' (List.mem_cons_of_mem _ h)) _ hstep

end Lemmas

/-! Concrete fixtures used by the witnesses: the spec's Scenario A and B
data (Task 1 with a Monday 10:00–12:00 window, a Monday 11:00–13:00
window on Task 2, a Tuesday window on Task 3), plus one task owning two
mutually conflicting windows. Times are minutes since midnight. -/

/-- Task 1's Monday 10:00–12:00 schedule. -/
def schedMon1 : Schedule :=
  ⟨1, 1, "Task 1", 600, 720, true, false, false, false, false, false, false⟩

/-- Task 2's Monday 11:00–13:00 schedule. -/
def schedMon2 : Schedule :=
  ⟨2, 2, "Task 2", 660, 780, true, false, false, false, false, false, false⟩

/-- Task 3's Tuesday 10:00–12:00 schedule. -/
def schedTue3 : Schedule :=
  ⟨3, 3, "Task 3", 600, 720, false, true, false, false, false, false, false⟩

/-- Task 4's Monday 10:00–12:00 schedule (first of two overlapping). -/
def schedMon4a : Schedule :=
  ⟨4, 4, "Task 4", 600, 720, true, false, false, false, false, false, false⟩

/-- Task 4's Monday 11:00–13:00 schedule (second of two overlapping). -/
def schedMon4b : Schedule :=
  ⟨5, 4, "Task 4", 660, 780, true, false, false, false, false, false, false⟩

/-- The index with Task 1's schedule active. -/
def idxTask1 : SSState := ⟨[schedMon1], [schedMon1]⟩

/-- Task 1, currently ACTIVE. -/
def task1 : Task := ⟨1, "Task 1", .active⟩

/-- A world where Task 1 is ACTIVE with its Monday schedule both persisted
and indexed. -/
def world1 : World := ⟨idxTask1, [task1], [schedMon1]⟩

/-- The identity field-edit: a serializer carrying no other field changes. -/
def noEdits : Task → Task := fun r => r

set_option maxRecDepth 4000

/-- C1: a schedule S tested by `_check_conflict` is reported as conflicting
if and only if some indexed schedule T (present in both internal lists)
satisfies `T.start_time < S.end_time`, `T.end_time > S.start_time`, and
shares a flagged weekday with S; moreover any reported `ScheduleConflict`
names such a T's task title, start/end times and the shared weekdays.  A
time-only overlap with no shared weekday is never reported. -/
theorem C1_conflict_detection (st : SSState) (S : Schedule) :
    ((ScheduleService.check_conflict st S).isSome = true ↔
      ∃ T, T ∈ st.starts ∧ T ∈ st.ends ∧
        T.start_time < S.end_time ∧ S.start_time < T.end_time ∧
        sharedDay S T = true) ∧
    (∀ r, ScheduleService.check_conflict st S = some r →
      ∃ T, T ∈ st.starts ∧ T ∈ st.ends ∧
        T.start_time < S.end_time ∧ S.start_time < T.end_time ∧
        sharedDay S T = true ∧
        r = ⟨T.taskTitle, T.start_time, T.end_time,
             ScheduleService.conflict_days S T⟩) :=
  ⟨check_conflict_isSome_iff st S, fun r => check_conflict_eq_some st S r⟩

/-- Witness for C1 at Scenario A's data: Task 2's Monday 11:00–13:00
window against the index holding Task 1's Monday 10:00–12:00 window. -/
theorem C1_witness :
    ∃ T, T ∈ idxTask1.starts ∧ T ∈ idxTask1.ends ∧
      T.start_time < schedMon2.end_time ∧ schedMon2.start_time < T.end_time ∧
      sharedDay schedMon2 T = true ∧
      (⟨"Task 1", 600, 720, ["Monday"]⟩ : ScheduleConflict) =
        ⟨T.taskTitle, T.start_time, T.end_time,
         ScheduleService.conflict_days schedMon2 T⟩ :=
  (C1_conflict_detection idxTask1 schedMon2).2
    ⟨"Task 1", 600, 720, ["Monday"]⟩ (by decide)

/-- C2: every sequence of `addTaskSchedules` / `removeTaskSchedules`
operations starting from the empty index preserves the invariant that no
two indexed schedules of different tasks overlap in time while sharing a
weekday (well-formedness of an add just records that
`instance.schedules.all()` returns schedules of the one task being
activated). -/
theorem C2_index_invariant (ops : List SSOp) (hwf : ∀ op ∈ ops, WFOp op) :
    IndexInv (runSSOps SSState.empty ops) :=
  indexInv_runSSOps ops hwf SSState.empty indexInv_empty

/-- Witness for C2 on a concrete activation/deactivation history. -/
theorem C2_witness :
    IndexInv (runSSOps SSState.empty
      [SSOp.addOp [schedMon1], SSOp.addOp [schedTue3], SSOp.removeOp [schedMon1]]) :=
  C2_index_invariant
    [SSOp.addOp [schedMon1], SSOp.addOp [schedTue3], SSOp.removeOp [schedMon1]]
    (by
      intro op h
      rcases List.mem_cons.mp h with h1 | h
      · subst h1
        show ∀ s₁ ∈ [schedMon1], ∀ s₂ ∈ [schedMon1], s₁.taskId = s₂.taskId
        decide
      rcases List.mem_cons.mp h with h1 | h
      · subst h1
        show ∀ s₁ ∈ [schedTue3], ∀ s₂ ∈ [schedTue3], s₁.taskId = s₂.taskId
        decide
      rcases List.mem_cons.mp h with h1 | h
      · subst h1
        exact trivial
      · exact absurd h (List.not_mem_nil op))

/-- C3: `add_task_schedules` is all-or-nothing — an empty schedule set
fails with the missing-schedules conflict and both indexes are returned
exactly as they were; a set containing any schedule that conflicts with
the current index fails with the schedule conflict, again leaving both
indexes exactly as they were (no schedule of the task is added). -/
theorem C3_all_or_nothing (st : SSState) (ss : List Schedule) :
    (ss = [] → ScheduleService.add_task_schedules st ss =
      (st, some (.missingSchedules conflictActiveTaskSchedulesMissingDetail))) ∧
    (ss ≠ [] → (∃ s ∈ ss, (ScheduleService.check_conflict st s).isSome = true) →
      ScheduleService.add_task_schedules st ss =
        (st, some (.scheduleConflict conflictActiveTaskSchedulesDetail))) :=
  ⟨fun h => h ▸ add_task_schedules_nil st,
   fun hne hc => add_task_schedules_of_conflict st ss hne hc⟩

/-- Witness for C3: the empty set and Scenario A's conflicting set, both
against the index holding Task 1's window. -/
theorem C3_witness :
    ScheduleService.add_task_schedules idxTask1 [] =
      (idxTask1, some (.missingSchedules conflictActiveTaskSchedulesMissingDetail)) ∧
    ScheduleService.add_task_schedules idxTask1 [schedMon2] =
      (idxTask1, some (.scheduleConflict conflictActiveTaskSchedulesDetail)) :=
  ⟨(C3_all_or_nothing idxTask1 []).1 rfl,
   (C3_all_or_nothing idxTask1 [schedMon2]).2 (by decide)
     ⟨schedMon2, by decide, by decide⟩⟩

/-- C4 counterexample: at Scenario A's data (Task 1 ACTIVE with Monday
10:00–12:00, Task 2 activating Monday 11:00–13:00) the conflict detector
does compute the record naming Task 1, Monday, 10:00–12:00 — but the
exception actually raised carries only the class's constant
`default_detail`, in which neither the colliding task's title nor the
shared weekday occurs. -/
theorem C4_counterexample :
    ScheduleService.add_task_schedules idxTask1 [schedMon2] =
      (idxTask1, some (.scheduleConflict conflictActiveTaskSchedulesDetail)) ∧
    ScheduleService.check_conflict idxTask1 schedMon2 =
      some ⟨"Task 1", 600, 720, ["Monday"]⟩ ∧
    ¬ ("Task 1".data <:+: conflictActiveTaskSchedulesDetail.data) ∧
    ¬ ("Monday".data <:+: conflictActiveTaskSchedulesDetail.data) :=
  ⟨by decide, by decide, by decide, by decide⟩

/-- C4 (amended): whenever `add_task_schedules` fails, the index is
unchanged and the raised error is one of two fixed values — the constant
missing-schedules detail or the constant schedule-conflict detail; the
computed `ScheduleConflict` records are discarded, so the surfaced error
never carries the colliding task's title, window or weekdays. -/
theorem C4_amended_error_is_constant (st : SSState) (ss : List Schedule)
    (st1 : SSState) (e : SvcErr)
    (h : ScheduleService.add_task_schedules st ss = (st1, some e)) :
    st1 = st ∧
      (e = .missingSchedules conflictActiveTaskSchedulesMissingDetail ∨
       e = .scheduleConflict conflictActiveTaskSchedulesDetail) := by
  by_cases hne : ss = []
  · subst hne
    rw [add_task_schedules_nil] at h
    refine ⟨(congrArg Prod.fst h).symm, Or.inl ?_⟩
    exact (Option.some.inj (congrArg Prod.snd h)).symm
  · by_cases hc : ∀ s ∈ ss, ScheduleService.check_conflict st s = none
    · rw [add_task_schedules_of_no_conflict st ss hne hc] at h
      exact absurd (congrArg Prod.snd h) (by simp)
    · push_neg at hc
      obtain ⟨s, hs, hsome⟩ := hc
      rw [add_task_schedules_of_conflict st ss hne
        ⟨s, hs, Option.ne_none_iff_isSome.mp hsome⟩] at h
      refine ⟨(congrArg Prod.fst h).symm, Or.inr ?_⟩
      exact (Option.some.inj (congrArg Prod.snd h)).symm

/-- Witness for the amended C4 at Scenario A's data. -/
theorem C4_witness :
    idxTask1 = idxTask1 ∧
      (SvcErr.scheduleConflict conflictActiveTaskSchedulesDetail =
        .missingSchedules conflictActiveTaskSchedulesMissingDetail ∨
       SvcErr.scheduleConflict conflictActiveTaskSchedulesDetail =
        .scheduleConflict conflictActiveTaskSchedulesDetail) :=
  C4_amended_error_is_constant idxTask1 [schedMon2] idxTask1
    (SvcErr.scheduleConflict conflictActiveTaskSchedulesDetail) (by decide)

/-- C5: a successful `add_task_schedules` followed by
`remove_task_schedules` of the same task restores both internal indexes
to exactly their prior content (the sorted containers are determined by
their content, so permutation of the modelled entry lists is content
equality): nothing of any other task is removed and nothing of the task
remains. -/
theorem C5_roundtrip (st : SSState) (ss : List Schedule) (st1 : SSState)
    (h : ScheduleService.add_task_schedules st ss = (st1, none)) :
    ∃ st2, ScheduleService.remove_task_schedules st1 ss = (st2, none) ∧
      st2.starts.Perm st.starts ∧ st2.ends.Perm st.ends := by
  obtain ⟨hne, _, hst1⟩ := add_task_schedules_ok st ss st1 h
  subst hst1
  obtain ⟨st2, hrun, hp1, hp2⟩ :=
    remove_loop_perm ss ⟨st.starts ++ ss, st.ends ++ ss⟩ st
      (List.Perm.refl _) (List.Perm.refl _)
  refine ⟨st2, ?_, hp1, hp2⟩
  have hemp : ss.isEmpty = false := by
    cases ss with
    | nil => exact absurd rfl hne
    | cons a l => rfl
  unfold ScheduleService.remove_task_schedules
  rw [hemp]
  simpa using hrun

/-- Witness for C5: activate Task 3's Tuesday window over the index
holding Task 1, then deactivate it again. -/
theorem C5_witness :
    ∃ st2, ScheduleService.remove_task_schedules
        ⟨[schedMon1, schedTue3], [schedMon1, schedTue3]⟩ [schedTue3] = (st2, none) ∧
      st2.starts.Perm idxTask1.starts ∧ st2.ends.Perm idxTask1.ends :=
  C5_roundtrip idxTask1 [schedTue3]
    ⟨[schedMon1, schedTue3], [schedMon1, schedTue3]⟩ (by decide)

/-- C6: the schedule side effects of `set_state_finished` depend only on
the source state — from ACTIVE the schedules leave the in-memory index
(one `removeTaskSchedules` call) and the persisted rows of the task are
deleted; from PAUSED only the persisted rows are deleted and the index is
untouched; from ARCHIVED neither is touched. -/
theorem C6_finished_side_effects (w : World) (t : Task) (edits : Task → Task) :
    (∀ st1, t.state = .active →
      ScheduleService.remove_task_schedules w.svc (taskSchedules w t.id) =
        (st1, none) →
      TaskService.set_state_finished w t edits =
        (updateTaskRow
          { w with svc := st1,
                   scheduleRows := w.scheduleRows.filter (fun s => s.taskId ≠ t.id) }
          t.id (fun r => { edits r with state := .finished }),
         [.removeCall t.id], none)) ∧
    (t.state = .paused →
      TaskService.set_state_finished w t edits =
        (updateTaskRow
          { w with scheduleRows := w.scheduleRows.filter (fun s => s.taskId ≠ t.id) }
          t.id (fun r => { edits r with state := .finished }), [], none)) ∧
    (t.state = .archived →
      TaskService.set_state_finished w t edits =
        (updateTaskRow w t.id (fun r => { edits r with state := .finished }),
         [], none)) := by
  refine ⟨?_, ?_, ?_⟩
  · intro st1 hst hrm
    unfold TaskService.set_state_finished
    rw [hst, hrm]
    simp
  · intro hst
    unfold TaskService.set_state_finished
    rw [hst]
    simp
  · intro hst
    unfold TaskService.set_state_finished
    rw [hst]
    simp

/-- Witness for C6: finishing the ACTIVE Task 1 in the concrete world. -/
theorem C6_witness :
    TaskService.set_state_finished world1 task1 noEdits =
      (updateTaskRow
        { world1 with
            svc := ⟨[], []⟩,
            scheduleRows := world1.scheduleRows.filter (fun s => s.taskId ≠ task1.id) }
        task1.id (fun r => { noEdits r with state := .finished }),
       [.removeCall task1.id], none) :=
  (C6_finished_side_effects world1 task1 noEdits).1 ⟨[], []⟩ rfl (by decide)

/-- C7: requesting a transition to the task's current state always
succeeds — the serializer's field edits are saved — and performs no
schedule-index operation (the invocation trace is empty and the index
component of the world is unchanged). -/
theorem C7_same_state_noop (w : World) (t : Task) (edits : Task → Task) :
    TaskService.check_and_update_state w t t.state edits =
      (updateTaskRow w t.id (fun r => { edits r with state := t.state }),
       [], none) ∧
    (updateTaskRow w t.id (fun r => { edits r with state := t.state })).svc
      = w.svc := by
  refine ⟨?_, rfl⟩
  unfold TaskService.check_and_update_state
  simp

/-- C8: without force, `remove_task` fails with `DeleteConflict` exactly
when the task is ACTIVE or PAUSED; from PLANNED, FINISHED or ARCHIVED the
deletion proceeds; and the conflict's detail names planned, finished and
archived as the valid source states. -/
theorem C8_delete_guard (w : World) (t : Task) :
    ((TaskService.remove_task w t false).2.2 =
        some (.deleteConflict conflictDeletedTaskDetail) ↔
      (t.state = .active ∨ t.state = .paused)) ∧
    (t.state = .planned ∨ t.state = .finished ∨ t.state = .archived →
      TaskService.remove_task w t false = (deleteTaskRow w t.id, [], none)) ∧
    ("planned".data <:+: conflictDeletedTaskDetail.data) ∧
    ("finished".data <:+: conflictDeletedTaskDetail.data) ∧
    ("archived".data <:+: conflictDeletedTaskDetail.data) := by
  refine ⟨?_, ?_, by decide, by decide, by decide⟩
  · cases ht : t.state <;>
      simp [TaskService.remove_task, ht]
  · intro h
    rcases h with ht | ht | ht <;>
      simp [TaskService.remove_task, ht]

/-- Witness for C8: Scenario F, deleting the ACTIVE Task 1 without
force. -/
theorem C8_witness :
    (TaskService.remove_task world1 task1 false).2.2 =
      some (.deleteConflict conflictDeletedTaskDetail) :=
  ((C8_delete_guard world1 task1).1).mpr (Or.inl rfl)

/-- C9 (implicit): `add_task_schedules` checks each schedule only against
the index as it was before the call, never against the task's other
schedules — so a task whose own schedules mutually conflict but clash
with nothing indexed is accepted, and the index afterwards holds both
mutually conflicting windows of that one task. -/
theorem C9_no_intra_task_check (st : SSState) (ss : List Schedule)
    (hne : ss ≠ [])
    (hok : ∀ s ∈ ss, ScheduleService.check_conflict st s = none)
    (s₁ s₂ : Schedule) (h1 : s₁ ∈ ss) (h2 : s₂ ∈ ss)
    (hid : s₁.taskId = s₂.taskId) (hconf : conflicting s₁ s₂ = true) :
    ∃ st1, ScheduleService.add_task_schedules st ss = (st1, none) ∧
      inIndex st1 s₁ ∧ inIndex st1 s₂ ∧
      s₁.taskId = s₂.taskId ∧ conflicting s₁ s₂ = true := by
  refine ⟨⟨st.starts ++ ss, st.ends ++ ss⟩,
    add_task_schedules_of_no_conflict st ss hne hok,
    ⟨?_, ?_⟩, ⟨?_, ?_⟩, hid, hconf⟩ <;>
      simp [h1, h2]

/-- Witness for C9: Task 4 activates two overlapping Monday windows onto
the empty index. -/
theorem C9_witness :
    ∃ st1, ScheduleService.add_task_schedules SSState.empty
        [schedMon4a, schedMon4b] = (st1, none) ∧
      inIndex st1 schedMon4a ∧ inIndex st1 schedMon4b ∧
      schedMon4a.taskId = schedMon4b.taskId ∧
      conflicting schedMon4a schedMon4b = true :=
  C9_no_intra_task_check SSState.empty [schedMon4a, schedMon4b]
    (by decide) (by decide) schedMon4a schedMon4b
    (by decide) (by decide) (by decide) (by decide)

/-- C10 (implicit): forced deletion keeps the index consistent — deleting
an ACTIVE task with force first removes its schedules from both internal
indexes and then deletes the row; forced deletion from any other state
performs no index mutation. -/
theorem C10_forced_delete (w : World) (t : Task) :
    (∀ st1, t.state = .active →
      ScheduleService.remove_task_schedules w.svc (taskSchedules w t.id) =
        (st1, none) →
      TaskService.remove_task w t true =
        (deleteTaskRow { w with svc := st1 } t.id, [.removeCall t.id], none)) ∧
    (t.state ≠ .active →
      TaskService.remove_task w t true = (deleteTaskRow w t.id, [], none)) := by
  constructor
  · intro st1 hst hrm
    unfold TaskService.remove_task
    rw [hst, hrm]
    simp
  · intro hst
    unfold TaskService.remove_task
    simp [hst]

/-- Witness for C10: forced deletion of the ACTIVE Task 1. -/
theorem C10_witness :
    TaskService.remove_task world1 task1 true =
      (deleteTaskRow { world1 with svc := ⟨[], []⟩ } task1.id,
       [.removeCall task1.id], none) :=
  (C10_forced_delete world1 task1).1 ⟨[], []⟩ rfl (by decide)

end STM
